import Mathlib

/-!
Verification development for the SurakshaAI Shield page-scan-and-risk-rendering
pipeline.  The definitions below are shallow embeddings of the JavaScript source
(extension/content.js, the desktop renderer, and the shared risk-normalisation
helpers); theorems settle the specification claims about them.

Modelling conventions:
* JS strings are Lean `String`s; `toUpperCase`/`toLowerCase` are modelled
  character-wise (the source only ever feeds them ASCII field names, ASCII
  severity labels, or text whose case only matters on ASCII letters).
* JS numbers that carry risk values are modelled as `ℚ` (they are finite
  decimals in every observed response; floating point rounding is irrelevant
  to the bucketing and clamping logic verified here).
* A JS object of unknown shape is modelled as a record of optional typed
  fields: `none`/`.absent` stands for a missing field or a field of the wrong
  runtime type (the source always guards with `typeof` checks).
-/

/-- Character-wise model of JavaScript `String.prototype.toUpperCase`. -/
def toUpperCase (s : String) : String :=
  String.mk (s.data.map Char.toUpper)

/-- Character-wise model of JavaScript `String.prototype.toLowerCase`. -/
def toLowerCase (s : String) : String :=
  String.mk (s.data.map Char.toLower)

/-- Model of JavaScript `String.prototype.slice(0, n)` / `.take`. -/
def strTake (s : String) (n : Nat) : String :=
  String.mk (s.data.take n)

/-- Model of JavaScript `String.prototype.includes`: `needle` occurs as a
contiguous substring of `hay`. -/
def containsSub (hay needle : String) : Bool :=
  (List.range (hay.data.length + 1)).any (fun i => needle.data.isPrefixOf (hay.data.drop i))

/-- Whitespace class for the model of JavaScript `String.prototype.trim`. -/
def isWs (c : Char) : Bool :=
  c = ' ' || c = '\t' || c = '\n' || c = '\r'

/-- Model of JavaScript `String.prototype.trim` (leading and trailing
whitespace removed). -/
def trimStr (s : String) : String :=
  String.mk (((s.data.dropWhile isWs).reverse.dropWhile isWs).reverse)

/-- Model of the JS idiom `typeof x === 'string' && x.trim()`: the field is
present as a string and is not blank.  Returns the (untrimmed) string. -/
def nonBlankString : Option String → Option String
  | some s => if trimStr s = "" then none else some s
  | none => none

/-- A JSON field that may arrive as a list, as a (possibly delimited) string,
or not at all (`absent` also stands for a value of another runtime type). -/
inductive StrOrList where
  | absent
  | str (s : String)
  | list (items : List String)
deriving DecidableEq

/-- A fallback-path threat: `{ phrase, risk, explanation }` as produced by
`useFallbackDetection` in content.js. -/
structure Threat where
  phrase : String
  risk : Nat
  explanation : String
deriving DecidableEq

/-- The untrusted classifier response (`RawClassifierResult`): every field the
normaliser probes, each optional.  Nested lookups (`genai_validation?.tactics`,
`structured_explanation?.technical_indicators`) are flattened into single
fields since the source only ever reads those leaves. -/
structure ClassifierData where
  severity : Option String := none
  overall_risk : Option ℚ := none
  risk_score : Option ℚ := none
  risk_level : Option String := none
  result : Option String := none
  threat_score : Option ℚ := none
  manipulation_radars : StrOrList := .absent
  manipulation_radar : StrOrList := .absent
  genai_validation_tactics : StrOrList := .absent
  detected_signals : StrOrList := .absent
  technical_indicators : StrOrList := .absent
  technical_indicator : StrOrList := .absent
  structured_explanation_technical_indicators : StrOrList := .absent
  links : StrOrList := .absent
  suspicious_domains : StrOrList := .absent
  suspicious_domain : StrOrList := .absent
  threats : List Threat := []
deriving DecidableEq

/-- `inferThreatLevel` from the desktop renderer: derives the displayed threat
level from whichever response fields are present, first match wins.  The
`none` input models the guard `if (!data || typeof data !== 'object')`. -/
def inferThreatLevel : Option ClassifierData → String
  | none => "UNKNOWN"
  | some d =>
    match nonBlankString d.severity with
    | some s => toUpperCase s
    | none =>
      match d.overall_risk with
      | some score =>
        if score < 30 then "LOW"
        else if score < 60 then "MEDIUM"
        else if score < 85 then "HIGH"
        else "CRITICAL"
      | none =>
        match d.risk_score with
        | some rs =>
          let score := if rs ≤ 1 then rs * 100 else rs
          if score ≤ 30 then "SAFE"
          else if score ≤ 55 then "SUSPICIOUS"
          else if score ≤ 80 then "HIGH RISK"
          else "CRITICAL"
        | none =>
          match nonBlankString d.risk_level with
          | some s => toUpperCase s
          | none =>
            match nonBlankString d.result with
            | some s => toUpperCase s
            | none => "UNKNOWN"

/-- JS `Math.max(0, Math.min(100, Math.round(x)))`; Mathlib `round` on `ℚ`
agrees with JS `Math.round` (both are `⌊x + 1/2⌋`). -/
def clamp100 (q : ℚ) : ℤ :=
  max 0 (min 100 (round q))

/-- `inferThreatScore` from the desktop renderer. -/
def inferThreatScore : Option ClassifierData → ℤ
  | none => 0
  | some d =>
    match d.threat_score with
    | some t => clamp100 t
    | none =>
      match d.overall_risk with
      | some t => clamp100 t
      | none =>
        match d.risk_score with
        | some rs => clamp100 (if rs ≤ 1 then rs * 100 else rs)
        | none => 0

section ClaimStatements

/-- The level-derivation precedence exactly as the (amended) claim C1 words it:
an ordered list of rules, evaluated first-match-wins, defaulting to UNKNOWN.
Written from the claim text, to be compared with `inferThreatLevel`. -/
def claimThreatLevel : Option ClassifierData → String
  | none => "UNKNOWN"
  | some d =>
    (d.severity.bind (fun s => if trimStr s = "" then none else some (toUpperCase s))
      <|> d.overall_risk.map (fun r =>
            if r < 30 then "LOW" else if r < 60 then "MEDIUM"
            else if r < 85 then "HIGH" else "CRITICAL")
      <|> d.risk_score.map (fun r =>
            let sc := if r ≤ 1 then r * 100 else r
            if sc ≤ 30 then "SAFE" else if sc ≤ 55 then "SUSPICIOUS"
            else if sc ≤ 80 then "HIGH RISK" else "CRITICAL")
      <|> d.risk_level.bind (fun s => if trimStr s = "" then none else some (toUpperCase s))
      <|> d.result.bind (fun s => if trimStr s = "" then none else some (toUpperCase s))).getD "UNKNOWN"

/-- The score derivation as claim C5 words it: first present numeric source,
`risk_score` scaled by 100 when at most 1, then rounded and clamped to
[0, 100], else 0.  Written from the claim text. -/
def claimThreatScore : Option ClassifierData → ℤ
  | none => 0
  | some d =>
    ((d.threat_score
        <|> d.overall_risk
        <|> d.risk_score.map (fun r => if r ≤ 1 then r * 100 else r)).map clamp100).getD 0

end ClaimStatements

/-- Bridge between the claim-side "non-blank passthrough" rule and the
implementation's guard. -/
theorem bind_nonBlank_eq (x : Option String) :
    x.bind (fun s => if trimStr s = "" then none else some (toUpperCase s)) =
      (nonBlankString x).map toUpperCase := by
  cases x with
  | none => rfl
  | some s =>
    by_cases h : trimStr s = "" <;> simp [nonBlankString, h]

/-- C1 (amended): the normalised threat level follows the exact first-match
precedence severity / overall risk buckets / scaled risk-score buckets /
risk-level / result / UNKNOWN, where the three string passthrough rules fire
only for strings that are non-blank after trimming. -/
theorem threatLevel_precedence (d : Option ClassifierData) :
    inferThreatLevel d = claimThreatLevel d := by
  cases d with
  | none => rfl
  | some d =>
    simp only [inferThreatLevel, claimThreatLevel, bind_nonBlank_eq]
    rcases h1 : nonBlankString d.severity with _ | s <;>
      rcases h2 : d.overall_risk with _ | q <;>
        rcases h3 : d.risk_score with _ | r <;>
          rcases h4 : nonBlankString d.risk_level with _ | l <;>
            rcases h5 : nonBlankString d.result with _ | t <;>
              simp [h1, h2, h3, h4, h5]


/-- C1 counterexample: a whitespace-only `severity` is a non-empty string, but
the code falls through to UNKNOWN instead of returning its uppercase. -/
theorem threatLevel_blank_severity_counterexample :
    inferThreatLevel (some { severity := some " " }) = "UNKNOWN" ∧
    (" " : String) ≠ "" ∧
    toUpperCase " " = " " ∧
    inferThreatLevel (some { severity := some " " }) ≠ toUpperCase " " := by
  refine ⟨by decide, by decide, by decide, by decide⟩

/-- `clamp100` always lands in [0, 100]. -/
theorem clamp100_bounds (q : ℚ) : 0 ≤ clamp100 q ∧ clamp100 q ≤ 100 := by
  unfold clamp100
  constructor
  · exact le_max_left 0 _
  · exact max_le (by norm_num) (min_le_left _ _)

/-- Rounding a rational already inside [0, 100] stays inside, so the clamp is
the identity there. -/
theorem clamp100_eq_round (q : ℚ) (h0 : 0 ≤ q) (h1 : q ≤ 100) :
    clamp100 q = round q := by
  have hfl : (0 : ℤ) ≤ round q := by
    rw [round_eq]
    exact Int.floor_nonneg.mpr (by linarith)
  have hub : round q ≤ 100 := by
    rw [round_eq]
    have h2 : q + 1 / 2 ≤ (100 : ℚ) + 1 / 2 := by linarith
    have h3 := Int.floor_le_floor h2
    have h4 : ⌊(100 : ℚ) + 1 / 2⌋ = 100 := by
      rw [show ((100 : ℚ) + 1 / 2) = ((100 : ℤ) : ℚ) + 1 / 2 by norm_num,
        Int.floor_int_add]
      norm_num
    omega
  unfold clamp100
  omega

/-- C5: the normalised score is the first present among threat score, overall
risk, and (scaled) risk score, rounded and clamped to [0, 100], else 0; a
fractional risk score in [0, 1] is used as the percentage it denotes, and a
risk score in (1, 100] is used as-is. -/
theorem threatScore_normalization :
    (∀ d : Option ClassifierData, inferThreatScore d = claimThreatScore d) ∧
    (∀ rs : ℚ, 0 ≤ rs → rs ≤ 1 →
      inferThreatScore (some { risk_score := some rs }) = round (rs * 100)) ∧
    (∀ rs : ℚ, 1 < rs → rs ≤ 100 →
      inferThreatScore (some { risk_score := some rs }) = round rs) := by
  refine ⟨?_, ?_, ?_⟩
  · intro d
    cases d with
    | none => rfl
    | some d =>
      simp only [inferThreatScore, claimThreatScore]
      rcases h1 : d.threat_score with _ | x <;>
        rcases h2 : d.overall_risk with _ | y <;>
          rcases h3 : d.risk_score with _ | z <;>
            simp [h1, h2, h3]
  · intro rs h0 h1
    simp only [inferThreatScore, if_pos h1]
    exact clamp100_eq_round _ (by positivity) (by nlinarith)
  · intro rs h1 h100
    simp only [inferThreatScore, if_neg (by linarith : ¬ rs ≤ 1)]
    exact clamp100_eq_round _ (by linarith) h100

/-- C5 witness: a fractional risk score of 0.5 yields a score of exactly 50,
by the theorem applied at that concrete input. -/
theorem threatScore_normalization_witness :
    inferThreatScore (some { risk_score := some (1 / 2) }) = 50 := by
  have h := threatScore_normalization.2.1 (1 / 2) (by norm_num) (by norm_num)
  rw [h, show ((1 : ℚ) / 2 * 100) = ((50 : ℤ) : ℚ) by norm_num, round_intCast]

/-- Delimiter class of the split regex `[,;\n|]+` in `normalizeStringList`. -/
def isDelim (c : Char) : Bool :=
  c == ',' || c == ';' || c == '\n' || c == '|'

/-- Split a character list at every character satisfying `p` (state-machine
form of `String.prototype.split`; empty pieces are kept here and discarded by
the caller's filter, which makes splitting on `[,;\n|]` and on `[,;\n|]+`
agree). -/
def splitChars (p : Char → Bool) : List Char → List (List Char)
  | [] => [[]]
  | c :: cs =>
    if p c then [] :: splitChars p cs
    else
      match splitChars p cs with
      | [] => [[c]]
      | h :: t => (c :: h) :: t

/-- `normalizeStringList` from the desktop renderer: a list is trimmed
element-wise, a string is split on comma/semicolon/newline/pipe, anything
else is empty; blank entries are dropped. -/
def normalizeStringList : StrOrList → List String
  | .list items => (items.map trimStr).filter (fun s => s ≠ "")
  | .str s =>
    (((splitChars isDelim s.data).map (fun cs => trimStr (String.mk cs)))).filter
      (fun s => s ≠ "")
  | .absent => []

/-- `uniqueValues` from the desktop renderer: JS `[...new Set(items)]`, i.e.
deduplication keeping the first occurrence of each string. -/
def uniqueValues (items : List String) : List String :=
  items.foldl (fun acc s => if s ∈ acc then acc else acc ++ [s]) []

/-- JS `\w` (ASCII word character), as used by `safeTitleCase`'s regex. -/
def isWordChar (c : Char) : Bool :=
  c.isAlphanum || c == '_'

/-- One `\w\S*` replacement of `safeTitleCase`: inside a whitespace-free
token, the first word character is uppercased and everything after it is
lowercased; leading non-word characters are untouched. -/
def titleCaseChars : List Char → List Char
  | [] => []
  | c :: cs =>
    if isWordChar c then c.toUpper :: cs.map Char.toLower
    else c :: titleCaseChars cs

/-- One step of collapsing `[_-]+` runs to a single space (the Bool records
whether the previous character belonged to such a run). -/
def collapseStep (acc : List Char × Bool) (c : Char) : List Char × Bool :=
  if c == '_' || c == '-' then
    (if acc.2 then acc.1 else acc.1 ++ [' '], true)
  else (acc.1 ++ [c], false)

/-- `safeTitleCase` from the desktop renderer:
`replace(/[_-]+/g, ' ').trim().replace(/\w\S*/g, titlecase)`. -/
def safeTitleCase (text : String) : String :=
  let spaced := trimStr (String.mk (text.data.foldl collapseStep ([], false)).1)
  String.intercalate " "
    ((splitChars (fun c => c == ' ') spaced.data).map
      (fun cs => String.mk (titleCaseChars cs)))

/-- Modelled from `new URL(link).hostname`: accepts `scheme://authority...`
strings and yields the host with any userinfo and port stripped; everything
else (relative or opaque URLs) counts as a parse failure.  This approximates
WHATWG URL parsing on the absolute-http(s) link shapes the backend emits. -/
def urlHostname (s : String) : Option String :=
  match s.splitOn "://" with
  | [] => none
  | [_] => none
  | scheme :: rest =>
    let after := String.intercalate "://" rest
    let authority := String.mk (after.data.takeWhile
      (fun c => !(c == '/' || c == '?' || c == '#')))
    let hostPort := (authority.splitOn "@").getLastD authority
    let host := String.mk (hostPort.data.takeWhile (fun c => !(c == ':')))
    if scheme = "" || host = "" then none else some host

/-- JS `a || b` on list-or-string fields: `undefined`, `null` and the empty
string are falsy; an empty array is truthy. -/
def jsOrField (a b : StrOrList) : StrOrList :=
  match a with
  | .absent => b
  | .str s => if s = "" then b else .str s
  | x => x

/-- `extractDomainsFromLinks` from the desktop renderer: parse every link,
keep the lowercased hostname of the parseable ones, deduplicate. -/
def extractDomainsFromLinks (links : StrOrList) : List String :=
  uniqueValues ((normalizeStringList links).filterMap
    (fun link => (urlHostname link).map toLowerCase))

/-- `resolveManipulationRadars` from the desktop renderer. -/
def resolveManipulationRadars (d : ClassifierData) : List String :=
  let radars := normalizeStringList (jsOrField d.manipulation_radars d.manipulation_radar)
  let radars := if radars.isEmpty then normalizeStringList d.genai_validation_tactics else radars
  let radars :=
    if radars.isEmpty then (normalizeStringList d.detected_signals).map safeTitleCase
    else radars
  uniqueValues radars

/-- `resolveTechnicalIndicators` from the desktop renderer. -/
def resolveTechnicalIndicators (d : ClassifierData) : List String :=
  let indicators := normalizeStringList (jsOrField d.technical_indicators d.technical_indicator)
  let indicators :=
    if indicators.isEmpty then
      normalizeStringList d.structured_explanation_technical_indicators
    else indicators
  let indicators :=
    if indicators.isEmpty && !(normalizeStringList d.links).isEmpty then
      ["External link present"]
    else indicators
  uniqueValues indicators

/-- `resolveSuspiciousDomains` from the desktop renderer. -/
def resolveSuspiciousDomains (d : ClassifierData) : List String :=
  let domains := normalizeStringList (jsOrField d.suspicious_domains d.suspicious_domain)
  uniqueValues
    (if domains.isEmpty then extractDomainsFromLinks d.links
     else domains.map (fun entry =>
       let raw := trimStr entry
       match urlHostname raw with
       | some h => toLowerCase h
       | none => toLowerCase raw))

/-- `uniqueValues` really deduplicates: its output has no duplicates. -/
theorem uniqueValues_nodup (items : List String) : (uniqueValues items).Nodup := by
  unfold uniqueValues
  have key : ∀ (l : List String) (acc : List String), acc.Nodup →
      (l.foldl (fun acc s => if s ∈ acc then acc else acc ++ [s]) acc).Nodup := by
    intro l
    induction l with
    | nil => intro acc h; simpa using h
    | cons x xs ih =>
      intro acc hacc
      simp only [List.foldl_cons]
      by_cases hx : x ∈ acc
      · rw [if_pos hx]; exact ih acc hacc
      · rw [if_neg hx]
        exact ih _ (by simp [List.nodup_append, hacc, hx])
  exact key items [] List.nodup_nil

/-- A string whose trim is non-blank is itself non-empty. -/
theorem nonBlankString_ne_empty {x : Option String} {s : String}
    (h : nonBlankString x = some s) : s ≠ "" := by
  cases x with
  | none => simp [nonBlankString] at h
  | some t =>
    simp only [nonBlankString] at h
    by_cases ht : trimStr t = ""
    · simp [ht] at h
    · simp only [ht, if_neg, ite_false] at h
      cases h
      intro hc
      rw [hc] at ht
      exact ht (by decide)

/-- Character-wise uppercasing preserves non-emptiness. -/
theorem toUpperCase_ne_empty (s : String) (h : s ≠ "") : toUpperCase s ≠ "" := by
  obtain ⟨l⟩ := s
  cases l with
  | nil => exact absurd rfl h
  | cons c cs =>
    intro hc
    exact absurd (congrArg String.data hc) (by simp [toUpperCase])

/-- The normalised score always lands in [0, 100]. -/
theorem inferThreatScore_bounds (d : Option ClassifierData) :
    0 ≤ inferThreatScore d ∧ inferThreatScore d ≤ 100 := by
  cases d with
  | none => exact ⟨le_refl 0, by norm_num [inferThreatScore]⟩
  | some d =>
    simp only [inferThreatScore]
    rcases d.threat_score with _ | x
    · rcases d.overall_risk with _ | y
      · rcases d.risk_score with _ | z
        · exact ⟨le_refl 0, by norm_num⟩
        · exact clamp100_bounds _
      · exact clamp100_bounds _
    · exact clamp100_bounds _

/-- The eight level strings the code itself can produce when no passthrough
string field is present (note `HIGH RISK` is spelt with a space). -/
def bucketLevels : List String :=
  ["SAFE", "LOW", "MEDIUM", "SUSPICIOUS", "HIGH", "HIGH RISK", "CRITICAL", "UNKNOWN"]

/-- C7 (amended): the normalised level is never empty; when no non-blank
severity / risk-level / result string passes through, it is one of the eight
bucket values (with `HIGH RISK` spelt with a space); a non-blank severity
string passes through uppercased verbatim; the score is always within
[0, 100]; and the signal, indicator and domain collections are always
deduplicated. -/
theorem normalizedRisk_invariants :
    (∀ d : Option ClassifierData, inferThreatLevel d ≠ "") ∧
    (∀ d : ClassifierData, nonBlankString d.severity = none →
      nonBlankString d.risk_level = none → nonBlankString d.result = none →
      inferThreatLevel (some d) ∈ bucketLevels) ∧
    (∀ (d : ClassifierData) (s : String), nonBlankString d.severity = some s →
      inferThreatLevel (some d) = toUpperCase s) ∧
    (∀ d : Option ClassifierData, 0 ≤ inferThreatScore d ∧ inferThreatScore d ≤ 100) ∧
    (∀ d : ClassifierData, (resolveManipulationRadars d).Nodup ∧
      (resolveTechnicalIndicators d).Nodup ∧ (resolveSuspiciousDomains d).Nodup) := by
  refine ⟨?_, ?_, ?_, inferThreatScore_bounds, ?_⟩
  · intro d
    cases d with
    | none => decide
    | some d =>
      simp only [inferThreatLevel]
      rcases h1 : nonBlankString d.severity with _ | s
      · rcases d.overall_risk with _ | q
        · rcases d.risk_score with _ | r
          · rcases h4 : nonBlankString d.risk_level with _ | l
            · rcases h5 : nonBlankString d.result with _ | t
              · decide
              · exact toUpperCase_ne_empty t (nonBlankString_ne_empty h5)
            · exact toUpperCase_ne_empty l (nonBlankString_ne_empty h4)
          · dsimp only
            split_ifs <;> decide
        · dsimp only
          split_ifs <;> decide
      · exact toUpperCase_ne_empty s (nonBlankString_ne_empty h1)
  · intro d h1 h4 h5
    simp only [inferThreatLevel, h1, h4, h5]
    rcases d.overall_risk with _ | q
    · rcases d.risk_score with _ | r
      · decide
      · dsimp only
        split_ifs <;> decide
    · dsimp only
      split_ifs <;> decide
  · intro d s h1
    simp only [inferThreatLevel, h1]
  · intro d
    refine ⟨?_, ?_, ?_⟩
    · unfold resolveManipulationRadars
      exact uniqueValues_nodup _
    · unfold resolveTechnicalIndicators
      exact uniqueValues_nodup _
    · unfold resolveSuspiciousDomains
      exact uniqueValues_nodup _

/-- C7 counterexample: an arbitrary severity string passes through uppercased
(`BANANA` is not in the claimed level set), and the risk-score bucket is
spelt `HIGH RISK`, not `HIGH_RISK`. -/
theorem level_set_counterexample :
    inferThreatLevel (some { severity := some "banana" }) = "BANANA" ∧
    "BANANA" ∉ (["SAFE", "LOW", "MEDIUM", "SUSPICIOUS", "HIGH", "HIGH_RISK",
      "CRITICAL", "UNKNOWN"] : List String) ∧
    inferThreatLevel (some { risk_score := some 70 }) = "HIGH RISK" ∧
    "HIGH RISK" ∉ (["SAFE", "LOW", "MEDIUM", "SUSPICIOUS", "HIGH", "HIGH_RISK",
      "CRITICAL", "UNKNOWN"] : List String) := by
  refine ⟨by decide, by decide, ?_, by decide⟩
  show inferThreatLevel (some { risk_score := some 70 }) = "HIGH RISK"
  simp only [inferThreatLevel, nonBlankString]
  norm_num

/-- C7 witness: the invariants applied at concrete inputs — a numeric overall
risk of 42 yields a bucket level, and a severity string passes through. -/
theorem normalizedRisk_invariants_witness :
    inferThreatLevel (some { overall_risk := some 42 }) ∈ bucketLevels ∧
    inferThreatLevel (some { severity := some "Phishing" }) = toUpperCase "Phishing" :=
  ⟨normalizedRisk_invariants.2.1 _ (by decide) (by decide) (by decide),
   normalizedRisk_invariants.2.2.1 _ "Phishing" (by decide)⟩

/-- The fixed `dangerousPatterns` table of `useFallbackDetection` in
content.js: phrase, risk, explanation, in source order. -/
def dangerousPatterns : List (String × Nat × String) :=
  [("password share karo", 90, "असली banks कभी भी password नहीं मांगते। यह scam है।"),
   ("otp batao", 95, "OTP केवल आप के लिए है। किसी को भी share मत करो।"),
   ("turant verify", 75, "Urgency एक common phishing tactic है।"),
   ("account block", 80, "डराने की कोशिश है। Bank ऐसे message नहीं भेजते।"),
   ("cvv enter", 95, "CVV कभी किसी को मत दो। यह fraud है।"),
   ("bank details bhejo", 90, "Bank details message में मत भेजो। Scam है।"),
   ("lottery jeet", 85, "Fake lottery scam है। कुछ भी share मत करो।"),
   ("police department", 70, "Police message से payment नहीं मांगती। Fake है।")]

/-- The fallback matcher's result shape `{ overall_risk, threats }`. -/
structure FallbackResult where
  overall_risk : Nat
  threats : List Threat
deriving DecidableEq

/-- `useFallbackDetection` from content.js: every table phrase that is a
case-insensitive substring of the text yields a Threat; the overall risk is
the maximum matched risk (JS `Math.max(...risks)`), or 0 with no matches. -/
def useFallbackDetection (text : String) : FallbackResult :=
  let lowerText := toLowerCase text
  let threats := dangerousPatterns.filterMap (fun entry =>
    if containsSub lowerText entry.1 then some ⟨entry.1, entry.2.1, entry.2.2⟩
    else none)
  { overall_risk :=
      if threats.isEmpty then 0
      else (threats.map (fun t => t.risk)).foldl Nat.max 0,
    threats := threats }

/-- The extension feeds the fallback result to the same normalisation as a
backend response: `{ overall_risk, threats }` as a classifier record. -/
def fallbackToData (r : FallbackResult) : ClassifierData :=
  { overall_risk := some (r.overall_risk : ℚ), threats := r.threats }

/-- The concrete end-to-end input named by claim C3. -/
def c3InputText : String :=
  "Your a/c will be blocked, verify OTP now: http://bit.ly/x"

/-- The `overall_risk` field of the fallback result, unfolded. -/
theorem useFallback_overall_eq (text : String) :
    (useFallbackDetection text).overall_risk =
      if ((useFallbackDetection text).threats).isEmpty then 0
      else (((useFallbackDetection text).threats).map (fun t => t.risk)).foldl Nat.max 0 :=
  rfl

/-- The accumulator never decreases through a `Nat.max` fold. -/
theorem foldl_max_init_le (l : List Nat) (a : Nat) : a ≤ l.foldl Nat.max a := by
  induction l generalizing a with
  | nil => exact le_refl a
  | cons x xs ih =>
    exact le_trans (Nat.le_max_left a x) (ih (Nat.max a x))

/-- Every element of the list is bounded by the `Nat.max` fold. -/
theorem le_foldl_max (l : List Nat) : ∀ (a x : Nat), x ∈ l → x ≤ l.foldl Nat.max a := by
  induction l with
  | nil =>
    intro a x hx
    cases hx
  | cons y ys ih =>
    intro a x hx
    rcases List.mem_cons.mp hx with h | h
    · subst h
      exact le_trans (Nat.le_max_right a x) (foldl_max_init_le ys (Nat.max a x))
    · exact ih (Nat.max a y) x h

/-- The `Nat.max` fold is either the initial accumulator or an element. -/
theorem foldl_max_eq_or_mem (l : List Nat) : ∀ a : Nat,
    l.foldl Nat.max a = a ∨ l.foldl Nat.max a ∈ l := by
  induction l with
  | nil =>
    intro a
    exact Or.inl rfl
  | cons y ys ih =>
    intro a
    rcases ih (Nat.max a y) with h | h
    · rcases Nat.le_total y a with hy | hy
      · left
        rw [List.foldl_cons, h]
        exact Nat.max_eq_left hy
      · right
        rw [List.foldl_cons, h, show Nat.max a y = y from Nat.max_eq_right hy]
        exact List.mem_cons_self y ys
    · right
      rw [List.foldl_cons]
      exact List.mem_cons_of_mem y h

/-- Any threat the fallback matcher emits comes from the fixed table, so its
risk is at least 70. -/
theorem fallback_threat_risk_ge (text : String) (t : Threat)
    (ht : t ∈ (useFallbackDetection text).threats) : 70 ≤ t.risk := by
  simp only [useFallbackDetection, List.mem_filterMap] at ht
  obtain ⟨entry, hentry, hsome⟩ := ht
  by_cases hc : containsSub (toLowerCase text) entry.1 = true
  · rw [if_pos hc] at hsome
    cases hsome
    simp only [dangerousPatterns] at hentry
    fin_cases hentry <;> decide
  · rw [if_neg hc] at hsome
    cases hsome

/-- C3 (amended): the fallback's overall risk is 0 exactly when no table
phrase matches, bounds every matched risk from above, and is itself one of
the matched risks when any phrase matches (i.e. it is their maximum); on the
concrete input named by the claim, no table phrase matches, so the fallback
reports zero threats, overall risk 0, and the derived level LOW. -/
theorem fallback_risk_max :
    (∀ text : String, (useFallbackDetection text).threats = [] →
      (useFallbackDetection text).overall_risk = 0) ∧
    (∀ (text : String) (t : Threat), t ∈ (useFallbackDetection text).threats →
      t.risk ≤ (useFallbackDetection text).overall_risk) ∧
    (∀ text : String, (useFallbackDetection text).threats ≠ [] →
      (useFallbackDetection text).overall_risk ∈
        (((useFallbackDetection text).threats).map (fun t => t.risk))) ∧
    ((useFallbackDetection c3InputText).threats = [] ∧
      (useFallbackDetection c3InputText).overall_risk = 0 ∧
      inferThreatLevel (some (fallbackToData (useFallbackDetection c3InputText))) = "LOW") := by
  refine ⟨?_, ?_, ?_, by decide, by decide, by decide⟩
  · intro text h
    rw [useFallback_overall_eq, h]
    rfl
  · intro text t ht
    have hne : (((useFallbackDetection text).threats).isEmpty) = false := by
      cases hl : (useFallbackDetection text).threats with
      | nil => exact absurd hl (List.ne_nil_of_mem ht)
      | cons a as => rfl
    rw [useFallback_overall_eq, hne]
    simp only [Bool.false_eq_true, if_false]
    exact le_foldl_max _ 0 t.risk (List.mem_map_of_mem _ ht)
  · intro text hne
    have hne' : (((useFallbackDetection text).threats).isEmpty) = false := by
      cases hl : (useFallbackDetection text).threats with
      | nil => exact absurd hl hne
      | cons a as => rfl
    rw [useFallback_overall_eq, hne']
    simp only [Bool.false_eq_true, if_false]
    rcases foldl_max_eq_or_mem (((useFallbackDetection text).threats).map (fun t => t.risk)) 0
      with h | h
    · exfalso
      rcases hhd : (useFallbackDetection text).threats with _ | ⟨t0, rest⟩
      · exact hne hhd
      · have hmem : t0 ∈ (useFallbackDetection text).threats := by
          rw [hhd]
          exact List.mem_cons_self t0 rest
        have h70 : 70 ≤ t0.risk := fallback_threat_risk_ge text t0 hmem
        have hle : t0.risk ≤
            (((useFallbackDetection text).threats).map (fun t => t.risk)).foldl Nat.max 0 :=
          le_foldl_max _ 0 t0.risk (List.mem_map_of_mem _ hmem)
        omega
    · exact h

/-- C3 counterexample: on the exact input the claim names, the fallback
matcher emits no threat at all (none of the eight table phrases occurs in the
text), so there is no threat with risk at least 70 and the derived level is
LOW, not SUSPICIOUS or higher. -/
theorem fallback_sample_counterexample :
    (useFallbackDetection c3InputText).threats = [] ∧
    ¬ (∃ t ∈ (useFallbackDetection c3InputText).threats, 70 ≤ t.risk) ∧
    inferThreatLevel (some (fallbackToData (useFallbackDetection c3InputText))) = "LOW" := by
  refine ⟨by decide, ?_, by decide⟩
  intro ⟨t, ht, _⟩
  rw [show (useFallbackDetection c3InputText).threats = [] from by decide] at ht
  cases ht

/-- C3 witness: on a text that does contain a table phrase, the matched
threat's risk is bounded by the reported overall risk, by the theorem applied
at that concrete input. -/
theorem fallback_risk_max_witness :
    (⟨"otp batao", 95, "OTP केवल आप के लिए है। किसी को भी share मत करो।"⟩ : Threat).risk ≤
      (useFallbackDetection "Please otp batao now").overall_risk :=
  fallback_risk_max.2.1 "Please otp batao now" _ (by decide)

/-- The two backend routes the clients know about. -/
inductive Endpoint where
  | analyze
  | analyzeLegacy
deriving DecidableEq

/-- Outcome of one `fetch` to a route: a parsed JSON body with `response.ok`,
a 404 ("not found", route absent), or any other failure — non-2xx status,
network error, or the extension client's 8-second `AbortSignal` timeout (the
code paths under test treat all of those alike). -/
inductive HttpOutcome where
  | ok (resp : ClassifierData)
  | notFound
  | failure
deriving DecidableEq

/-- `analyzeText` from extension/content.js: POST the text to `/analyze`
(8-second timeout); on any non-ok response or error — including a 404 — fall
back to the local pattern matcher.  It never contacts the legacy route. -/
def analyzeTextExt (env : Endpoint → HttpOutcome) (text : String) : ClassifierData :=
  match env .analyze with
  | .ok r => r
  | _ => fallbackToData (useFallbackDetection text)

/-- The `analyze-text` handler of the desktop renderer: POST to `/analyze`;
on a 404 retry exactly once against `/analyze_text` with the identical
payload; any failure after that renders the "Backend not running!" message
(there is no local fallback matcher on this path). -/
def analyzeDesktop (env : Endpoint → HttpOutcome) : Except String ClassifierData :=
  match env .analyze with
  | .ok r => .ok r
  | .notFound =>
    match env .analyzeLegacy with
    | .ok r => .ok r
    | _ => .error "Backend not running!"
  | .failure => .error "Backend not running!"

/-- An environment in which `/analyze` is absent (404) but the legacy
`/analyze_text` route would answer. -/
def envLegacyOnly : Endpoint → HttpOutcome
  | .analyze => .notFound
  | .analyzeLegacy => .ok { threat_score := some 42 }

/-- An environment in which every route fails (service unreachable). -/
def envAllFail : Endpoint → HttpOutcome
  | _ => .failure

/-- C2 counterexample: no single client behaves as the claim states.  With
`/analyze` answering 404 and the legacy route answering, the extension client
returns the local fallback result instead of retrying the legacy route; and
with the service unreachable, the desktop client (the one that does retry on
404) yields the error message, not a fallback-matcher result. -/
theorem classificationClient_counterexample :
    analyzeTextExt envLegacyOnly "hello" =
      fallbackToData (useFallbackDetection "hello") ∧
    analyzeTextExt envLegacyOnly "hello" ≠ ({ threat_score := some 42 } : ClassifierData) ∧
    analyzeDesktop envAllFail = .error "Backend not running!" := by
  refine ⟨rfl, by decide, rfl⟩

/-- C2 (amended): the extension client uses the primary `/analyze` route only
and degrades to the local Fallback Matcher on any failure (so a scan always
produces a result), while the desktop client retries exactly once against the
legacy `/analyze_text` route on a 404 and reports an error — with no local
fallback — when classification still fails. -/
theorem classificationClient_behavior :
    (∀ (env : Endpoint → HttpOutcome) (text : String) (r : ClassifierData),
      env .analyze = .ok r → analyzeTextExt env text = r) ∧
    (∀ (env : Endpoint → HttpOutcome) (text : String),
      (∀ r : ClassifierData, env .analyze ≠ .ok r) →
      analyzeTextExt env text = fallbackToData (useFallbackDetection text)) ∧
    (∀ (env : Endpoint → HttpOutcome) (r : ClassifierData),
      env .analyze = .ok r → analyzeDesktop env = .ok r) ∧
    (∀ (env : Endpoint → HttpOutcome) (r : ClassifierData),
      env .analyze = .notFound → env .analyzeLegacy = .ok r →
      analyzeDesktop env = .ok r) ∧
    (∀ env : Endpoint → HttpOutcome,
      env .analyze = .notFound → env .analyzeLegacy = .notFound ∨ env .analyzeLegacy = .failure →
      analyzeDesktop env = .error "Backend not running!") ∧
    (∀ env : Endpoint → HttpOutcome,
      env .analyze = .failure → analyzeDesktop env = .error "Backend not running!") := by
  refine ⟨?_, ?_, ?_, ?_, ?_, ?_⟩
  · intro env text r h
    simp [analyzeTextExt, h]
  · intro env text h
    unfold analyzeTextExt
    cases henv : env .analyze with
    | ok r => exact absurd henv (h r)
    | notFound => rfl
    | failure => rfl
  · intro env r h
    simp [analyzeDesktop, h]
  · intro env r h1 h2
    simp [analyzeDesktop, h1, h2]
  · intro env h1 h2
    rcases h2 with h2 | h2 <;> simp [analyzeDesktop, h1, h2]
  · intro env h
    simp [analyzeDesktop, h]

/-- C2 witness: the amended behaviour applied at concrete environments — the
extension client falls back when every route fails, and the desktop client
succeeds through the legacy retry. -/
theorem classificationClient_behavior_witness :
    analyzeTextExt envAllFail "otp batao" =
      fallbackToData (useFallbackDetection "otp batao") ∧
    analyzeDesktop envLegacyOnly = .ok ({ threat_score := some 42 } : ClassifierData) :=
  ⟨classificationClient_behavior.2.1 envAllFail "otp batao" (fun r h => HttpOutcome.noConfusion h),
   classificationClient_behavior.2.2.2.1 envLegacyOnly _ (by decide) (by decide)⟩

/-- scanPage's block budget (content.js). -/
def MAX_BLOCKS : Nat := 60

/-- scanPage's hard character cap on the combined text (content.js). -/
def MAX_LENGTH : Nat := 4000

/-- The prioritise-then-cap block selection of `scanPage` in content.js:
suspicious-looking blocks first (original relative order), then the rest,
truncated to `MAX_BLOCKS`.  The suspicious-hint regex is abstracted as the
Boolean predicate `hint` on a block's text; each block is represented by its
text (the DOM node handle plays no part in the selection). -/
def selectBlocks (hint : String → Bool) (blocks : List String) : List String :=
  (blocks.filter hint ++ blocks.filter (fun b => !hint b)).take MAX_BLOCKS

/-- The combined scan text of `scanPage`: selected blocks joined with blank
lines, then sliced to at most `MAX_LENGTH` characters. -/
def combinedText (hint : String → Bool) (blocks : List String) : String :=
  let fullText := String.intercalate "\n\n" (selectBlocks hint blocks)
  if MAX_LENGTH < fullText.length then strTake fullText MAX_LENGTH else fullText

/-- Slicing a string to `n` characters bounds its length by `n`. -/
theorem strTake_length (s : String) (n : Nat) : (strTake s n).length = min n s.length := by
  show (s.data.take n).length = min n s.data.length
  simp [List.length_take]

/-- C4: whenever at most 60 blocks match the suspicious hint, the selected
sequence is exactly all matching blocks in original order followed by the
non-matching blocks in original order truncated to fill up to 60 slots; the
selection never exceeds 60 blocks; and the combined text never exceeds 4000
characters. -/
theorem blockBudget_selection (hint : String → Bool) (blocks : List String)
    (h : (blocks.filter hint).length ≤ MAX_BLOCKS) :
    selectBlocks hint blocks =
      blocks.filter hint ++
        (blocks.filter (fun b => !hint b)).take (MAX_BLOCKS - (blocks.filter hint).length) ∧
    (selectBlocks hint blocks).length ≤ MAX_BLOCKS ∧
    (combinedText hint blocks).length ≤ MAX_LENGTH := by
  refine ⟨?_, ?_, ?_⟩
  · unfold selectBlocks
    rw [List.take_append_eq_append_take, List.take_of_length_le h]
  · unfold selectBlocks
    rw [List.length_take]
    exact min_le_left _ _
  · unfold combinedText
    dsimp only
    by_cases hlen :
        MAX_LENGTH < (String.intercalate "\n\n" (selectBlocks hint blocks)).length
    · rw [if_pos hlen, strTake_length]
      exact min_le_left _ _
    · rw [if_neg hlen]
      omega

/-- The concrete 100-block scenario of claim C4: ten suspicious blocks
followed by ninety plain ones. -/
def c4Blocks : List String :=
  List.replicate 10 "OTP maango to kabhi mat do, bank kabhi nahi mangta" ++
    List.replicate 90 "just some ordinary page prose for this block"

/-- The hint instantiation for the concrete scenario. -/
def c4Hint (s : String) : Bool :=
  containsSub (toLowerCase s) "otp"

/-- C4 witness: the theorem applied to the concrete 100-block scenario (10
suspicious blocks, 90 plain ones). -/
theorem blockBudget_selection_witness :
    selectBlocks c4Hint c4Blocks =
      c4Blocks.filter c4Hint ++
        (c4Blocks.filter (fun b => !c4Hint b)).take
          (MAX_BLOCKS - (c4Blocks.filter c4Hint).length) ∧
    (selectBlocks c4Hint c4Blocks).length ≤ MAX_BLOCKS ∧
    (combinedText c4Hint c4Blocks).length ≤ MAX_LENGTH :=
  blockBudget_selection c4Hint c4Blocks (by decide)

/-- The presentation panel's state: the global `renderSequence` counter and
the visible panel content (`resultDiv.innerHTML`). -/
structure RenderState where
  seq : Nat
  panel : Option String
deriving DecidableEq

/-- Entry of `renderAnalysis`: `const currentRender = ++renderSequence` — the
render is stamped with the strictly increased counter; the stamp is the
ticket the completion will compare against. -/
def startRender (st : RenderState) : Nat × RenderState :=
  (st.seq + 1, { st with seq := st.seq + 1 })

/-- Completion of `renderAnalysis` after its awaited translations resolve:
`if (currentRender !== renderSequence) return;` — the panel is mutated only
when no later render has started since; a stale render is a total no-op
(nothing is thrown). -/
def completeRender (ticket : Nat) (html : String) (st : RenderState) : RenderState :=
  if ticket = st.seq then { st with panel := some html } else st

/-- C6: for two renders R1 then R2 where R2 starts before R1's asynchronous
work resolves, R1's completion is a no-op (its ticket is stale), only R2's
output is ever applied to the panel, and in general any ticket older than the
current sequence number never mutates the state. -/
theorem render_staleness_guard :
    (∀ (st0 : RenderState) (o1 o2 : String),
      completeRender (startRender st0).1 o1 (startRender (startRender st0).2).2 =
        (startRender (startRender st0).2).2 ∧
      (completeRender (startRender (startRender st0).2).1 o2
        (startRender (startRender st0).2).2).panel = some o2 ∧
      completeRender (startRender st0).1 o1
          (completeRender (startRender (startRender st0).2).1 o2
            (startRender (startRender st0).2).2) =
        completeRender (startRender (startRender st0).2).1 o2
          (startRender (startRender st0).2).2) ∧
    (∀ (ticket : Nat) (st : RenderState) (html : String), ticket < st.seq →
      completeRender ticket html st = st) := by
  constructor
  · intro st0 o1 o2
    refine ⟨?_, ?_, ?_⟩
    · simp [startRender, completeRender]
    · simp [startRender, completeRender]
    · simp [startRender, completeRender]
  · intro ticket st html h
    simp [completeRender, Nat.ne_of_lt h]

/-- C6 witness: the staleness guard applied at a concrete stale ticket. -/
theorem render_staleness_guard_witness :
    completeRender 1 "old output" ⟨2, some "new output"⟩ = ⟨2, some "new output"⟩ :=
  render_staleness_guard.2 1 ⟨2, some "new output"⟩ "old output" (by decide)

/-- A flattened model of the page's DOM for the Highlight Engine: the
document's relevant children in order.  A `highlightSpan` is a
`surakshaai-highlight` span wrapping the given text, a `tooltip` is a
`surakshaai-tooltip` popover.  (Nesting is irrelevant: the engine only ever
splits one text node into text / span / text siblings and appends tooltips
to the body.)  The `highlights` registry array of content.js holds exactly
the spans present in the document, so teardown over the registry coincides
with unwrapping every span node. -/
inductive DomNode where
  | textNode (s : String)
  | highlightSpan (s : String)
  | tooltip (s : String)
deriving DecidableEq

/-- The page: its node list. -/
structure PageState where
  nodes : List DomNode
deriving DecidableEq

/-- A node's text content. -/
def nodeText : DomNode → String
  | .textNode s => s
  | .highlightSpan s => s
  | .tooltip s => s

/-- Whether a node is a `surakshaai-tooltip` popover. -/
def isTooltip : DomNode → Bool
  | .tooltip _ => true
  | _ => false

/-- Whether a node is a `surakshaai-highlight` span. -/
def isHighlightSpan : DomNode → Bool
  | .highlightSpan _ => true
  | _ => false

/-- One step of `clearHighlights`:
`parent.replaceChild(document.createTextNode(span.textContent), span)` — a
highlight span becomes a text node with exactly its text content. -/
def unwrapNode : DomNode → DomNode
  | .highlightSpan s => .textNode s
  | n => n

/-- `clearHighlights` from content.js: every registered highlight span is
replaced by a text node carrying its text content, and every
`surakshaai-tooltip` element is removed.  Total — it throws nothing. -/
def clearHighlights (st : PageState) : PageState :=
  ⟨(st.nodes.map unwrapNode).filter (fun n => !isTooltip n)⟩

/-- First index at which `needle` occurs in `hay`
(JS `String.prototype.indexOf`). -/
def indexOfSub (hay needle : List Char) : Option Nat :=
  (List.range (hay.length + 1)).find? (fun i => needle.isPrefixOf (hay.drop i))

/-- `highlightText` from content.js, restricted to one node: find the first
case-insensitive occurrence of the phrase in a text node and wrap it —
`range.surroundContents(span)` splits the node into the text before, the
highlight span over the phrase occurrence (original casing), and the text
after.  Non-text nodes and non-matching nodes are left alone. -/
def highlightTextNode (phrase : String) (n : DomNode) : List DomNode :=
  match n with
  | .textNode s =>
    match indexOfSub (toLowerCase s).data (toLowerCase phrase).data with
    | some i =>
      [.textNode (String.mk (s.data.take i)),
       .highlightSpan (String.mk ((s.data.drop i).take phrase.data.length)),
       .textNode (String.mk ((s.data.drop i).drop phrase.data.length))]
    | none => [n]
  | other => [other]

/-- One highlight pass over the page for one threat phrase (scanPage wraps
the phrase in each block whose text contains it). -/
def applyHighlightPass (phrase : String) (st : PageState) : PageState :=
  ⟨st.nodes.flatMap (highlightTextNode phrase)⟩

/-- `showTooltip` from content.js: any existing tooltip is removed, then a
new tooltip element is appended to the body. -/
def showTooltip (tip : String) (st : PageState) : PageState :=
  ⟨st.nodes.filter (fun n => !isTooltip n) ++ [.tooltip tip]⟩

/-- The document's text content: concatenation of all nodes' text. -/
def pageText (st : PageState) : String :=
  String.mk (st.nodes.flatMap (fun n => (nodeText n).data))

/-- A scan's visible effect before teardown: a highlight pass for a phrase
plus an opened tooltip popover. -/
def afterScan (phrase tip : String) (st : PageState) : PageState :=
  showTooltip tip (applyHighlightPass phrase st)

/-- Unwrapping preserves a node's text content. -/
theorem nodeText_unwrap (n : DomNode) : nodeText (unwrapNode n) = nodeText n := by
  cases n <;> rfl

/-- Unwrapping preserves tooltip-ness. -/
theorem isTooltip_unwrap (n : DomNode) : isTooltip (unwrapNode n) = isTooltip n := by
  cases n <;> rfl

/-- Unwrapping is idempotent on nodes. -/
theorem unwrap_unwrap (n : DomNode) : unwrapNode (unwrapNode n) = unwrapNode n := by
  cases n <;> rfl

/-- An unwrapped node is never a highlight span. -/
theorem isHighlightSpan_unwrap (n : DomNode) : isHighlightSpan (unwrapNode n) = false := by
  cases n <;> rfl

/-- Wrapping a phrase occurrence preserves the text content of the node:
the three fragments concatenate back to the original characters. -/
theorem highlightTextNode_text (phrase : String) (n : DomNode) :
    (highlightTextNode phrase n).flatMap (fun m => (nodeText m).data) =
      (nodeText n).data := by
  cases n with
  | textNode s =>
    simp only [highlightTextNode]
    cases indexOfSub (toLowerCase s).data (toLowerCase phrase).data with
    | none => simp
    | some i =>
      show (s.data.take i) ++ (((s.data.drop i).take phrase.data.length) ++
        (((s.data.drop i).drop phrase.data.length) ++ [])) = s.data
      rw [List.append_nil, List.take_append_drop, List.take_append_drop]
  | highlightSpan s => simp [highlightTextNode]
  | tooltip s => simp [highlightTextNode]

/-- The highlight pass introduces no tooltip nodes. -/
theorem highlightTextNode_noTooltip (phrase : String) (n : DomNode)
    (h : isTooltip n = false) :
    ∀ m ∈ highlightTextNode phrase n, isTooltip m = false := by
  intro m hm
  cases n with
  | textNode s =>
    simp only [highlightTextNode] at hm
    rcases hidx : indexOfSub (toLowerCase s).data (toLowerCase phrase).data with _ | i
    · rw [hidx] at hm
      simp at hm
      subst hm
      rfl
    · rw [hidx] at hm
      simp at hm
      rcases hm with h | h | h <;> subst h <;> rfl
  | highlightSpan s =>
    simp only [highlightTextNode, List.mem_singleton] at hm
    subst hm
    rfl
  | tooltip s => exact absurd h (by simp [isTooltip])

/-- Teardown is idempotent on any page: the second call finds no highlight
span to unwrap and no tooltip to remove. -/
theorem clearHighlights_idem (st : PageState) :
    clearHighlights (clearHighlights st) = clearHighlights st := by
  obtain ⟨ns⟩ := st
  simp only [clearHighlights, PageState.mk.injEq]
  induction ns with
  | nil => rfl
  | cons n ns ih =>
    simp only [List.map_cons, List.filter_cons]
    by_cases h : isTooltip (unwrapNode n) = true
    · simp only [h, Bool.not_true, Bool.false_eq_true, if_false]
      exact ih
    · have h' : (!isTooltip (unwrapNode n)) = true := by
        simp [Bool.not_eq_true] at h ⊢
        exact h
      rw [if_pos h', List.map_cons, List.filter_cons, unwrap_unwrap, h']
      simp [ih]

/-- C8: on a page with no open popover, running a scan's highlight pass (plus
an opened tooltip) and then tearing down twice is safe: the second teardown
is a no-op (nothing left to remove), the document's text content is restored
byte-identically to its pre-scan state, and no tooltip or highlight span
survives teardown. -/
theorem clearHighlights_idempotent_restores_text
    (phrase tip : String) (st : PageState)
    (h : ∀ n ∈ st.nodes, isTooltip n = false) :
    clearHighlights (clearHighlights (afterScan phrase tip st)) =
      clearHighlights (afterScan phrase tip st) ∧
    pageText (clearHighlights (afterScan phrase tip st)) = pageText st ∧
    pageText (clearHighlights (clearHighlights (afterScan phrase tip st))) = pageText st ∧
    (∀ n ∈ (clearHighlights (afterScan phrase tip st)).nodes,
      isTooltip n = false ∧ isHighlightSpan n = false) := by
  have hpass : ∀ m ∈ st.nodes.flatMap (highlightTextNode phrase), isTooltip m = false := by
    intro m hm
    rw [List.mem_flatMap] at hm
    obtain ⟨n, hn, hmn⟩ := hm
    exact highlightTextNode_noTooltip phrase n (h n hn) m hmn
  have hfilter :
      (st.nodes.flatMap (highlightTextNode phrase)).filter (fun n => !isTooltip n) =
        st.nodes.flatMap (highlightTextNode phrase) :=
    List.filter_eq_self.mpr (fun a ha => by simp [hpass a ha])
  have hmapfilter :
      ((st.nodes.flatMap (highlightTextNode phrase)).map unwrapNode).filter
          (fun n => !isTooltip n) =
        (st.nodes.flatMap (highlightTextNode phrase)).map unwrapNode := by
    refine List.filter_eq_self.mpr ?_
    intro a ha
    rw [List.mem_map] at ha
    obtain ⟨m, hm, rfl⟩ := ha
    simp [isTooltip_unwrap, hpass m hm]
  have hclear : clearHighlights (afterScan phrase tip st) =
      ⟨(st.nodes.flatMap (highlightTextNode phrase)).map unwrapNode⟩ := by
    simp only [clearHighlights, afterScan, showTooltip, applyHighlightPass,
      PageState.mk.injEq]
    rw [hfilter, List.map_append, List.filter_append, hmapfilter]
    simp [unwrapNode, isTooltip]
  have htext : pageText (clearHighlights (afterScan phrase tip st)) = pageText st := by
    rw [hclear]
    simp only [pageText]
    rw [List.flatMap_map]
    simp only [nodeText_unwrap]
    rw [List.flatMap_assoc]
    simp only [highlightTextNode_text]
  refine ⟨clearHighlights_idem _, htext, ?_, ?_⟩
  · rw [clearHighlights_idem]
    exact htext
  · intro n hn
    rw [hclear] at hn
    rw [List.mem_map] at hn
    obtain ⟨m, hm, rfl⟩ := hn
    exact ⟨by rw [isTooltip_unwrap]; exact hpass m hm, isHighlightSpan_unwrap m⟩

/-- A one-node page for the teardown witness. -/
def c8Page : PageState :=
  ⟨[.textNode "Your OTP batao now friend"]⟩

/-- C8 witness: the teardown theorem applied at a concrete page, phrase and
tooltip, discharging the no-preexisting-popover hypothesis by computation. -/
theorem clearHighlights_idempotent_restores_text_witness :
    clearHighlights (clearHighlights (afterScan "otp batao" "tip" c8Page)) =
      clearHighlights (afterScan "otp batao" "tip" c8Page) ∧
    pageText (clearHighlights (afterScan "otp batao" "tip" c8Page)) = pageText c8Page :=
  ⟨(clearHighlights_idempotent_restores_text "otp batao" "tip" c8Page (by decide)).1,
   (clearHighlights_idempotent_restores_text "otp batao" "tip" c8Page (by decide)).2.1⟩

/-- `TRANSLATE_TARGET_MAP` from the desktop renderer. -/
def TRANSLATE_TARGET_MAP : String → Option String
  | "en" => some "en"
  | "as" => some "as"
  | "bn" => some "bn"
  | "brx" => some "hi"
  | "doi" => some "hi"
  | "gu" => some "gu"
  | "hi" => some "hi"
  | "kn" => some "kn"
  | "ks" => some "ur"
  | "gom" => some "hi"
  | "mai" => some "hi"
  | "ml" => some "ml"
  | "mni" => some "hi"
  | "mr" => some "mr"
  | "ne" => some "ne"
  | "or" => some "or"
  | "pa" => some "pa"
  | "sa" => some "sa"
  | "sat" => some "hi"
  | "sd" => some "sd"
  | "ta" => some "ta"
  | "te" => some "te"
  | "ur" => some "ur"
  | _ => none

/-- `getTranslateTarget`: `TRANSLATE_TARGET_MAP[selectedLanguage] || 'en'`. -/
def getTranslateTarget (selectedLanguage : String) : String :=
  (TRANSLATE_TARGET_MAP selectedLanguage).getD "en"

/-- `TTS_LANG_MAP` from the desktop renderer. -/
def TTS_LANG_MAP : String → Option String
  | "en" => some "en-IN"
  | "as" => some "as-IN"
  | "bn" => some "bn-IN"
  | "brx" => some "hi-IN"
  | "doi" => some "hi-IN"
  | "gu" => some "gu-IN"
  | "hi" => some "hi-IN"
  | "kn" => some "kn-IN"
  | "ks" => some "ur-IN"
  | "gom" => some "hi-IN"
  | "mai" => some "hi-IN"
  | "ml" => some "ml-IN"
  | "mni" => some "hi-IN"
  | "mr" => some "mr-IN"
  | "ne" => some "ne-NP"
  | "or" => some "or-IN"
  | "pa" => some "pa-IN"
  | "sa" => some "hi-IN"
  | "sat" => some "hi-IN"
  | "sd" => some "sd-IN"
  | "ta" => some "ta-IN"
  | "te" => some "te-IN"
  | "ur" => some "ur-IN"
  | _ => none

/-- `getSpeechLang`: `TTS_LANG_MAP[selectedLanguage] || 'en-IN'`. -/
def getSpeechLang (selectedLanguage : String) : String :=
  (TTS_LANG_MAP selectedLanguage).getD "en-IN"

/-- Model of `String.prototype.startsWith`. -/
def strStartsWith (s p : String) : Bool :=
  p.data.isPrefixOf s.data

/-- An on-device speech-synthesis voice. -/
structure Voice where
  lang : String
  isDefault : Bool
deriving DecidableEq

/-- `hasVoiceForLang` from the desktop renderer: exact lowercase match, else
prefix match on the language family (before the first dash). -/
def hasVoiceForLang (voices : List Voice) (langCode : String) : Bool :=
  if voices.isEmpty then false
  else
    let normalized := toLowerCase langCode
    if voices.any (fun v => toLowerCase v.lang == normalized) then true
    else
      let base := String.mk (normalized.data.takeWhile (fun c => !(c == '-')))
      voices.any (fun v => strStartsWith (toLowerCase v.lang) base)

/-- `pickBestVoice` from the desktop renderer: exact locale match, else
language-family prefix match, else Indian English, else a default voice,
else the first voice. -/
def pickBestVoice (voices : List Voice) (langCode : String) : Option Voice :=
  if voices.isEmpty then none
  else
    match voices.find? (fun v => toLowerCase v.lang == toLowerCase langCode) with
    | some v => some v
    | none =>
      let base := String.mk ((toLowerCase langCode).data.takeWhile (fun c => !(c == '-')))
      match voices.find? (fun v => strStartsWith (toLowerCase v.lang) base) with
      | some v => some v
      | none =>
        match voices.find? (fun v => toLowerCase v.lang == "en-in") with
        | some v => some v
        | none =>
          match voices.find? (fun v => v.isDefault) with
          | some v => some v
          | none => voices.head?

/-- What is currently audible: the utterances queued in
`window.speechSynthesis` and the `Audio` elements playing remote-TTS audio.
Each call models the corresponding DOM side effect. -/
structure SpeechState where
  synthUtterances : List String
  audioTracks : List String
deriving DecidableEq

/-- `synth.cancel()`. -/
def synthCancel (st : SpeechState) : SpeechState :=
  { st with synthUtterances := [] }

/-- `synth.speak(utterance)` (the synthesiser queues utterances). -/
def synthSpeak (text : String) (st : SpeechState) : SpeechState :=
  { st with synthUtterances := st.synthUtterances ++ [text] }

/-- `audioPlayer.pause(); audioPlayer = null`. -/
def audioPause (st : SpeechState) : SpeechState :=
  { st with audioTracks := [] }

/-- `audioPlayer = new Audio(url); await audioPlayer.play()`. -/
def audioPlay (text : String) (st : SpeechState) : SpeechState :=
  { st with audioTracks := st.audioTracks ++ [text] }

/-- `speakWithSystemVoice` from the desktop renderer: cancel any in-flight
synthesis, then speak (the voice chosen by `pickBestVoice` does not affect
which channels are audible).  It never touches the remote audio player. -/
def speakWithSystemVoice (text : String) (st : SpeechState) : SpeechState :=
  synthSpeak text (synthCancel st)

/-- `tryRemoteTts` from the desktop renderer: pause and drop any previous
audio player, then play the (190-character-capped) remote audio; on failure
report `false` with nothing playing.  It never touches `speechSynthesis`. -/
def tryRemoteTts (text targetLang : String) (playSucceeds : Bool)
    (st : SpeechState) : Bool × SpeechState :=
  let st1 := audioPause st
  if playSucceeds then (true, audioPlay (strTake text 190) st1) else (false, st1)

/-- `speakText` from the desktop renderer: trimmed-empty text is ignored; a
matching on-device voice speaks via the system channel; otherwise a
non-English target tries remote TTS first and falls back to the system
channel. `voices` models the cached voice list and `remotePlaySucceeds` the
outcome of `audioPlayer.play()`. -/
def speakText (selectedLanguage : String) (voices : List Voice)
    (remotePlaySucceeds : Bool) (text : String) (st : SpeechState) : SpeechState :=
  let payload := trimStr text
  if payload = "" then st
  else
    let target := getTranslateTarget selectedLanguage
    let systemLang := getSpeechLang selectedLanguage
    if hasVoiceForLang voices systemLang then speakWithSystemVoice payload st
    else if target ≠ "en" then
      match tryRemoteTts payload target remotePlaySucceeds st with
      | (true, st1) => st1
      | (false, st1) => speakWithSystemVoice payload st1
    else speakWithSystemVoice payload st

/-- How many utterances are audible at once across both channels. -/
def audibleCount (st : SpeechState) : Nat :=
  st.synthUtterances.length + st.audioTracks.length

/-- The voice list for the counterexample: one Indian-English voice. -/
def c9Voices : List Voice :=
  [⟨"en-IN", true⟩]

/-- C9 counterexample: an English request speaks on the system channel; a
following Hindi request (no Hindi on-device voice) plays remote audio without
cancelling the system utterance — two utterances are audible at once. -/
theorem speech_overlap_counterexample :
    audibleCount
      (speakText "hi" c9Voices true "Namaste suno"
        (speakText "en" c9Voices true "Hello there" ⟨[], []⟩)) = 2 ∧
    ¬ audibleCount
      (speakText "hi" c9Voices true "Namaste suno"
        (speakText "en" c9Voices true "Hello there" ⟨[], []⟩)) ≤ 1 := by
  exact ⟨by decide, by decide⟩

/-- C9 (amended): each speech request cancels or replaces in-flight speech on
its own output channel — a system-voice request replaces prior synthesis, a
remote request replaces prior remote audio — so each channel carries at most
one utterance and at most two are audible overall; but a request does not
cancel the other channel, so one system utterance and one remote audio may
sound simultaneously. -/
theorem speech_channel_replacement :
    (∀ (lang : String) (voices : List Voice) (ok : Bool) (text : String)
        (st : SpeechState),
      st.synthUtterances.length ≤ 1 → st.audioTracks.length ≤ 1 →
      (speakText lang voices ok text st).synthUtterances.length ≤ 1 ∧
      (speakText lang voices ok text st).audioTracks.length ≤ 1 ∧
      audibleCount (speakText lang voices ok text st) ≤ 2) ∧
    (∀ (text : String) (st : SpeechState),
      (speakWithSystemVoice text st).synthUtterances = [text] ∧
      (speakWithSystemVoice text st).audioTracks = st.audioTracks) ∧
    (∀ (text targetLang : String) (ok : Bool) (st : SpeechState),
      (tryRemoteTts text targetLang ok st).2.audioTracks.length ≤ 1 ∧
      (tryRemoteTts text targetLang ok st).2.synthUtterances = st.synthUtterances) := by
  refine ⟨?_, ?_, ?_⟩
  · intro lang voices ok text st h1 h2
    unfold speakText audibleCount
    dsimp only
    by_cases htrim : trimStr text = ""
    · rw [if_pos htrim]
      unfold audibleCount at *
      exact ⟨h1, h2, by omega⟩
    · rw [if_neg htrim]
      by_cases hv : hasVoiceForLang voices (getSpeechLang lang) = true
      · rw [if_pos hv]
        simp [speakWithSystemVoice, synthSpeak, synthCancel]
        omega
      · rw [if_neg hv]
        by_cases ht : getTranslateTarget lang ≠ "en"
        · rw [if_pos ht]
          cases ok with
          | true =>
            simp [tryRemoteTts, audioPause, audioPlay]
            omega
          | false =>
            simp [tryRemoteTts, audioPause, speakWithSystemVoice, synthSpeak, synthCancel]
        · rw [if_neg ht]
          simp [speakWithSystemVoice, synthSpeak, synthCancel]
          omega
  · intro text st
    exact ⟨rfl, rfl⟩
  · intro text targetLang ok st
    cases ok with
    | true => exact ⟨by simp [tryRemoteTts, audioPause, audioPlay], rfl⟩
    | false => exact ⟨by simp [tryRemoteTts, audioPause], rfl⟩

/-- C9 witness: the per-channel bound applied at a concrete request over a
non-empty prior state. -/
theorem speech_channel_replacement_witness :
    (speakText "en" c9Voices true "Hello" ⟨["previous"], []⟩).synthUtterances.length ≤ 1 ∧
    (speakText "en" c9Voices true "Hello" ⟨["previous"], []⟩).audioTracks.length ≤ 1 ∧
    audibleCount (speakText "en" c9Voices true "Hello" ⟨["previous"], []⟩) ≤ 2 :=
  speech_channel_replacement.1 "en" c9Voices true "Hello" ⟨["previous"], []⟩
    (by decide) (by decide)

/-- One character of `escapeHtml`'s output. -/
def escapeHtmlChar (c : Char) : String :=
  if c == '&' then "&amp;"
  else if c == '<' then "&lt;"
  else if c == '>' then "&gt;"
  else if c == '"' then "&quot;"
  else if c == '\'' then "&#39;"
  else String.mk [c]

/-- `escapeHtml` from the desktop renderer, modelled character-wise: the
source's five sequential single-character `.replace` calls (ampersand first)
are equivalent to replacing each character independently, because the
patterns are single characters and the entity texts introduced by later
replaces are never re-scanned. -/
def escapeHtml (value : String) : String :=
  String.mk (value.data.flatMap (fun c => (escapeHtmlChar c).data))

/-- Occurrences of a character in a string. -/
def countChar (c : Char) (s : String) : Nat :=
  s.data.count c

/-- Counting distributes over string append. -/
theorem countChar_append (c : Char) (a b : String) :
    countChar c (a ++ b) = countChar c a + countChar c b := by
  unfold countChar
  rw [String.data_append, List.count_append]

/-- No escaped character contributes `<`, `>`, `"` or `'`. -/
theorem escapeHtmlChar_count (c x : Char)
    (hx : x = '<' ∨ x = '>' ∨ x = '"' ∨ x = '\'') :
    (escapeHtmlChar c).data.count x = 0 := by
  unfold escapeHtmlChar
  split_ifs with h1 h2 h3 h4 h5 <;>
    rcases hx with rfl | rfl | rfl | rfl <;>
      first
        | decide
        | (rw [List.count_eq_zero]
           simp only [List.mem_singleton]
           intro hc
           subst hc
           first
             | exact h2 rfl
             | exact h3 rfl
             | exact h4 rfl
             | exact h5 rfl)

/-- `escapeHtml` output never contains `<`, `>`, `"` or `'`: no markup or
attribute-breaking character survives escaping. -/
theorem escapeHtml_count (s : String) (x : Char)
    (hx : x = '<' ∨ x = '>' ∨ x = '"' ∨ x = '\'') :
    countChar x (escapeHtml s) = 0 := by
  unfold countChar escapeHtml
  show (s.data.flatMap (fun c => (escapeHtmlChar c).data)).count x = 0
  induction s.data with
  | nil => rfl
  | cons c cs ih =>
    rw [List.flatMap_cons, List.count_append, ih, escapeHtmlChar_count c x hx]

/-- The decimal text of a score in [0, 100] contains no `<`. -/
theorem toString_score_count (z : ℤ) (h0 : 0 ≤ z) (h1 : z ≤ 100) :
    countChar '<' (toString z) = 0 := by
  have hz : ((z.toNat : ℕ) : ℤ) = z := Int.toNat_of_nonneg h0
  have hn : z.toNat < 101 := by omega
  have hall : ∀ n : Nat, n < 101 → countChar '<' (toString ((n : Int))) = 0 := by decide
  have := hall z.toNat hn
  rwa [hz] at this

/-- The panel template of `renderAnalysis` in the desktop renderer: every
backend-derived string is interpolated through `escapeHtml`; only the numeric
threat score is interpolated raw. -/
def renderAnalysisHtml (threatLevelLabel threatScoreLabel detectedLanguageLabel
    manipulationRadarLabel technicalIndicatorsLabel suspiciousDomainsLabel
    translatedThreatLevel translatedDetectedLanguage displayedManipulation
    displayedTechnical displayedDomains : String) (threatScore : ℤ) : String :=
  "\n    <div><strong>" ++ escapeHtml threatLevelLabel ++ ":</strong> " ++
    escapeHtml translatedThreatLevel ++ "</div>\n    <div><strong>" ++
    escapeHtml threatScoreLabel ++ ":</strong> " ++ toString threatScore ++
    "/100</div>\n    <div><strong>" ++ escapeHtml detectedLanguageLabel ++
    ":</strong> " ++ escapeHtml translatedDetectedLanguage ++
    "</div>\n    <div style=\"margin-top:8px;\"><strong>" ++
    escapeHtml manipulationRadarLabel ++ ":</strong> " ++
    escapeHtml displayedManipulation ++
    "</div>\n    <div style=\"margin-top:6px;\"><strong>" ++
    escapeHtml technicalIndicatorsLabel ++ ":</strong> " ++
    escapeHtml displayedTechnical ++
    "</div>\n    <div style=\"margin-top:6px;\"><strong>" ++
    escapeHtml suspiciousDomainsLabel ++ ":</strong> " ++
    escapeHtml displayedDomains ++ "</div>\n  "

/-- C10: escaping replaces the five HTML-special characters by their
entities, and consequently — for every classifier response and arbitrary
translated label or content strings — the rendered panel contains exactly the
24 `<` characters of the fixed template: no response-controlled text ever
opens a tag, and the only unescaped interpolation is the numeric score. -/
theorem render_html_escaping :
    escapeHtml "&<>\"'" = "&amp;&lt;&gt;&quot;&#39;" ∧
    (∀ (s : String) (x : Char), x = '<' ∨ x = '>' ∨ x = '"' ∨ x = '\'' →
      countChar x (escapeHtml s) = 0) ∧
    (∀ (l1 l2 l3 l4 l5 l6 v1 v2 v3 v4 v5 : String) (data : Option ClassifierData),
      countChar '<'
        (renderAnalysisHtml l1 l2 l3 l4 l5 l6 v1 v2 v3 v4 v5
          (inferThreatScore data)) = 24) := by
  refine ⟨by decide, escapeHtml_count, ?_⟩
  intro l1 l2 l3 l4 l5 l6 v1 v2 v3 v4 v5 data
  have hb := inferThreatScore_bounds data
  unfold renderAnalysisHtml
  repeat rw [countChar_append]
  rw [toString_score_count _ hb.1 hb.2]
  repeat rw [escapeHtml_count _ '<' (Or.inl rfl)]
  decide

/-- C10 witness: the escaping guarantee applied at a concrete hostile string,
discharging the character-choice hypothesis. -/
theorem render_html_escaping_witness :
    countChar '<' (escapeHtml "<img src=x onerror=alert(1)>") = 0 :=
  render_html_escaping.2.1 "<img src=x onerror=alert(1)>" '<' (Or.inl rfl)
